import Mathlib

/-!
Verification of the multi-visual-tasks repository's augmentation and
inference code against its natural-language specification.

The Python source is shallowly embedded: numpy float arrays of box
coordinates and scores become lists of rationals (`ℚ`), integer ids and
labels become `ℤ`, python dicts become lookup functions built by
last-write-wins insertion, and fallible code returns `Option`/`Except`.
Randomly sampled quantities (crop offsets, candidate patches, chosen
modes) are passed as explicit parameters, so one call of the embedding
corresponds to one resolved draw of the Python random state.
-/

namespace MVT

/-- An axis-aligned box `[x1, y1, x2, y2]` in float (here `ℚ`) coordinates,
as stored in the numpy `(N, 4)` box arrays of the transform pipeline. -/
structure Box where
  x1 : ℚ
  y1 : ℚ
  x2 : ℚ
  y2 : ℚ
deriving DecidableEq

/-- Boolean-mask indexing `xs[m]` of numpy: keep the entries of `xs` at the
positions where `m` is `true`. -/
def maskFilter {α : Type} (xs : List α) (m : List Bool) : List α :=
  ((xs.zip m).filter (fun p => p.2)).map (fun p => p.1)

/-- Lookup in a python dict built by inserting `entries` in list order
(a later insert with the same key overwrites an earlier one): scan the
entries from the end. -/
def dictLookup {κ ν : Type} [DecidableEq κ] (entries : List (κ × ν)) (k : κ) :
    Option ν :=
  (entries.reverse.find? (fun e => decide (e.1 = k))).map (fun e => e.2)

theorem maskFilter_self_map {α : Type} (xs : List α) (p : α → Bool) :
    maskFilter xs (xs.map p) = xs.filter p := by
  induction xs with
  | nil => rfl
  | cons x t ih =>
    by_cases h : p x <;> simp [maskFilter, h] at ih ⊢ <;> exact ih

/-! ### `JointRandomFlip.bbox_flip` (transforms.py)

`bbox_flip` reflects each group of four coordinates of an `(..., 4k)` box
array; we model the array as a list of `Box` (one entry per 4-group, which
the strided slicing `0::4` … `3::4` treats identically). -/

inductive FlipDirection
  | horizontal
  | vertical
  | diagonal
deriving DecidableEq

/-- One 4-group of `JointRandomFlip.bbox_flip`: `img_shape` is `(h, w)`. -/
def flip_box (direction : FlipDirection) (h w : ℚ) (b : Box) : Box :=
  match direction with
  | .horizontal => { b with x1 := w - b.x2, x2 := w - b.x1 }
  | .vertical => { b with y1 := h - b.y2, y2 := h - b.y1 }
  | .diagonal =>
      { x1 := w - b.x2, y1 := h - b.y2, x2 := w - b.x1, y2 := h - b.y1 }

/-- `JointRandomFlip.bbox_flip`: flip a box array for a given direction and
image shape `(h, w)`. -/
def bbox_flip (direction : FlipDirection) (img_shape : ℚ × ℚ)
    (bboxes : List Box) : List Box :=
  bboxes.map (flip_box direction img_shape.1 img_shape.2)

theorem flip_box_flip_box (d : FlipDirection) (h w : ℚ) (b : Box) :
    flip_box d h w (flip_box d h w b) = b := by
  cases d <;> cases b <;> simp [flip_box, sub_sub_cancel]

/-- C7: for every box array, every image shape and every flip direction in
{horizontal, vertical, diagonal}, applying `bbox_flip` twice with the same
direction and shape returns the original boxes exactly. -/
theorem bbox_flip_involutive (d : FlipDirection) (img_shape : ℚ × ℚ)
    (bboxes : List Box) :
    bbox_flip d img_shape (bbox_flip d img_shape bboxes) = bboxes := by
  induction bboxes with
  | nil => rfl
  | cons b t ih =>
    simpa [bbox_flip, flip_box_flip_box] using ih

/-! ### Generic dict lemmas -/

theorem dictLookup_isSome {κ ν : Type} [DecidableEq κ]
    (entries : List (κ × ν)) (k : κ) :
    (dictLookup entries k).isSome ↔ ∃ e ∈ entries, e.1 = k := by
  simp only [dictLookup, Option.isSome_map']
  rw [List.find?_isSome]
  constructor
  · rintro ⟨e, he, hp⟩
    exact ⟨e, (List.mem_reverse).1 he, of_decide_eq_true hp⟩
  · rintro ⟨e, he, hp⟩
    exact ⟨e, (List.mem_reverse).2 he, decide_eq_true hp⟩

theorem dictLookup_eq_some {κ ν : Type} [DecidableEq κ]
    (entries : List (κ × ν)) (k : κ) (v : ν)
    (h : dictLookup entries k = some v) :
    ∃ e ∈ entries, e.1 = k ∧ e.2 = v := by
  simp only [dictLookup, Option.map_eq_some'] at h
  obtain ⟨e, hfind, hv⟩ := h
  refine ⟨e, (List.mem_reverse).1 (List.mem_of_find?_eq_some hfind), ?_, hv⟩
  have hp := List.find?_some hfind
  exact of_decide_eq_true hp

theorem find?_key_unique {κ ν : Type} [DecidableEq κ]
    (l : List (κ × ν)) (e : κ × ν)
    (hnodup : (l.map (fun p => p.1)).Nodup) (he : e ∈ l) :
    l.find? (fun p => decide (p.1 = e.1)) = some e := by
  induction l with
  | nil => cases he
  | cons a t ih =>
    rcases List.mem_cons.1 he with rfl | hmem
    · simp [List.find?]
    · have hkey : ¬a.1 = e.1 := by
        intro hk
        have : e.1 ∈ t.map (fun p => p.1) := List.mem_map_of_mem _ hmem
        rw [← hk] at this
        exact (List.nodup_cons.1 hnodup).1 this
      have ht := ih (List.nodup_cons.1 hnodup).2 hmem
      simp [List.find?, hkey, ht]

theorem dictLookup_of_mem {κ ν : Type} [DecidableEq κ]
    (entries : List (κ × ν)) (e : κ × ν)
    (hnodup : (entries.map (fun p => p.1)).Nodup) (he : e ∈ entries) :
    dictLookup entries e.1 = some e.2 := by
  have hrev : ((entries.reverse).map (fun p => p.1)).Nodup := by
    rw [List.map_reverse, List.nodup_reverse]
    exact hnodup
  have hfind := find?_key_unique entries.reverse e hrev ((List.mem_reverse).2 he)
  simp [dictLookup, hfind]

/-! ### `get_label_mapping` (inference.py)

Builds the reference-category-id → query-category-id mapping by matching
category names; a reference name absent from the query side maps to `0`. -/

/-- One entry of a `categories` list in a taxonomy JSON. -/
structure Cat where
  id : ℤ
  name : String
deriving DecidableEq

/-- The `qry_dict` loop of `get_label_mapping`: name → query category id. -/
def qry_dict (qry_cat_list : List Cat) : String → Option ℤ :=
  dictLookup (qry_cat_list.map (fun c => (c.name, c.id)))

/-- `get_label_mapping`: for each reference category, map its id to the
query id of the category with the same name, or to `0` when no query
category has that name. -/
def get_label_mapping (ref_cat_list qry_cat_list : List Cat) : ℤ → Option ℤ :=
  dictLookup (ref_cat_list.map (fun c =>
    (c.id, match qry_dict qry_cat_list c.name with
           | some q => q
           | none => 0)))

theorem qry_dict_eq_none (qry_cat_list : List Cat) (n : String)
    (h : ∀ qc ∈ qry_cat_list, qc.name ≠ n) :
    qry_dict qry_cat_list n = none := by
  by_contra hne
  obtain ⟨v, hv⟩ := Option.ne_none_iff_exists'.1 hne
  obtain ⟨e, he, hk, _⟩ := dictLookup_eq_some _ _ _ hv
  obtain ⟨qc, hqc, rfl⟩ := List.mem_map.1 he
  exact h qc hqc hk

theorem qry_dict_matched (qry_cat_list : List Cat) (n : String)
    (h : ∃ qc ∈ qry_cat_list, qc.name = n) :
    ∃ qc ∈ qry_cat_list, qc.name = n ∧ qry_dict qry_cat_list n = some qc.id := by
  obtain ⟨qc, hqc, hname⟩ := h
  have hsome : (qry_dict qry_cat_list n).isSome := by
    rw [qry_dict, dictLookup_isSome]
    exact ⟨(qc.name, qc.id), List.mem_map_of_mem _ hqc, hname⟩
  obtain ⟨v, hv⟩ := Option.isSome_iff_exists.1 hsome
  obtain ⟨e, he, hk, hval⟩ := dictLookup_eq_some _ _ _ hv
  obtain ⟨qc', hqc', rfl⟩ := List.mem_map.1 he
  exact ⟨qc', hqc', hk, by rw [hv, ← hval]⟩

/-- C4: the domain of `get_label_mapping` is exactly the set of reference
category ids; assuming reference ids are pairwise distinct (as in a COCO
`categories` list), every reference category whose name equals some query
category's name maps to the id of a query category bearing that name, and
every reference category whose name matches no query category's name maps
to the sentinel `0`. -/
theorem get_label_mapping_spec (ref_cat_list qry_cat_list : List Cat)
    (hnodup : (ref_cat_list.map (fun c => c.id)).Nodup) :
    (∀ k : ℤ, (get_label_mapping ref_cat_list qry_cat_list k).isSome ↔
        ∃ c ∈ ref_cat_list, c.id = k) ∧
    (∀ rc ∈ ref_cat_list,
      ((∃ qc ∈ qry_cat_list, qc.name = rc.name) →
        ∃ qc ∈ qry_cat_list, qc.name = rc.name ∧
          get_label_mapping ref_cat_list qry_cat_list rc.id = some qc.id) ∧
      ((∀ qc ∈ qry_cat_list, qc.name ≠ rc.name) →
        get_label_mapping ref_cat_list qry_cat_list rc.id = some 0)) := by
  constructor
  · intro k
    rw [get_label_mapping, dictLookup_isSome]
    constructor
    · rintro ⟨e, he, hk⟩
      obtain ⟨c, hc, rfl⟩ := List.mem_map.1 he
      exact ⟨c, hc, hk⟩
    · rintro ⟨c, hc, hk⟩
      exact ⟨_, List.mem_map_of_mem _ hc, hk⟩
  · intro rc hrc
    have hkeys : ((ref_cat_list.map (fun c =>
        ((c.id : ℤ), match qry_dict qry_cat_list c.name with
                     | some q => q
                     | none => 0))).map (fun p => p.1)).Nodup := by
      rw [List.map_map]
      exact hnodup
    have hmain := dictLookup_of_mem _ _ hkeys
      (List.mem_map_of_mem (fun c =>
        ((c.id : ℤ), match qry_dict qry_cat_list c.name with
                     | some q => q
                     | none => 0)) hrc)
    constructor
    · intro hex
      obtain ⟨qc, hqc, hname, hqd⟩ := qry_dict_matched qry_cat_list rc.name hex
      refine ⟨qc, hqc, hname, ?_⟩
      rw [get_label_mapping]
      rw [hqd] at hmain
      exact hmain
    · intro hall
      have hqd := qry_dict_eq_none qry_cat_list rc.name hall
      rw [get_label_mapping]
      rw [hqd] at hmain
      exact hmain

/-- Witness for C4 at the spec's concrete scenario: reference categories
`[{1,"apple"},{2,"banana"}]` and query categories
`[{10,"apple"},{11,"banana"}]`. -/
theorem get_label_mapping_spec_witness :
    (∀ k : ℤ, (get_label_mapping [⟨1, "apple"⟩, ⟨2, "banana"⟩]
        [⟨10, "apple"⟩, ⟨11, "banana"⟩] k).isSome ↔
        ∃ c ∈ [(⟨1, "apple"⟩ : Cat), ⟨2, "banana"⟩], c.id = k) ∧
    (∀ rc ∈ [(⟨1, "apple"⟩ : Cat), ⟨2, "banana"⟩],
      ((∃ qc ∈ [(⟨10, "apple"⟩ : Cat), ⟨11, "banana"⟩], qc.name = rc.name) →
        ∃ qc ∈ [(⟨10, "apple"⟩ : Cat), ⟨11, "banana"⟩], qc.name = rc.name ∧
          get_label_mapping [⟨1, "apple"⟩, ⟨2, "banana"⟩]
            [⟨10, "apple"⟩, ⟨11, "banana"⟩] rc.id = some qc.id) ∧
      ((∀ qc ∈ [(⟨10, "apple"⟩ : Cat), ⟨11, "banana"⟩], qc.name ≠ rc.name) →
        get_label_mapping [⟨1, "apple"⟩, ⟨2, "banana"⟩]
          [⟨10, "apple"⟩, ⟨11, "banana"⟩] rc.id = some 0)) :=
  get_label_mapping_spec [⟨1, "apple"⟩, ⟨2, "banana"⟩]
    [⟨10, "apple"⟩, ⟨11, "banana"⟩] (by decide)

/-! ### `save_submit_json` (inference.py)

Fuses inferred labels into the detection JSON: every annotation's id must
be present in the bbox-id → label dict (`assert ann['id'] in pred_dict`,
a fatal error modelled as `Except.error`, after which no output file is
written); annotations with `score < score_thr` are dropped; surviving
annotations get `category_id` overwritten with `int(label)` (labels are
integers here, so the cast is the identity). -/

/-- One entry of the `annotations` list of the detection JSON. -/
structure Ann where
  image_id : ℤ
  id : ℤ
  bbox : List ℤ
  category_id : ℤ
  score : ℚ
deriving DecidableEq

/-- One entry of the `images` list of the detection JSON. -/
structure ImageInfo where
  file_name : String
  id : ℤ
deriving DecidableEq

/-- The detection JSON written by `save_det_json` and read back by
`save_submit_json`. -/
structure DetJson where
  images : List ImageInfo
  annotations : List Ann
deriving DecidableEq

/-- The `pred_dict` loop of `save_submit_json`: bbox id → inferred label. -/
def build_pred_dict (bbox_ids labels : List ℤ) : ℤ → Option ℤ :=
  dictLookup (bbox_ids.zip labels)

/-- The annotation loop of `save_submit_json`: assert the id is mapped,
drop the annotation when its score is below the threshold, otherwise
overwrite its `category_id` with the mapped label. -/
def fuse_annotations (pred_dict : ℤ → Option ℤ) (score_thr : ℚ) :
    List Ann → Except String (List Ann)
  | [] => Except.ok []
  | ann :: rest =>
    match pred_dict ann.id with
    | none => Except.error "AssertionError: ann id not in pred_dict"
    | some label =>
      if ann.score < score_thr then
        fuse_annotations pred_dict score_thr rest
      else
        match fuse_annotations pred_dict score_thr rest with
        | Except.error e => Except.error e
        | Except.ok tail => Except.ok ({ ann with category_id := label } :: tail)

/-- `save_submit_json`: replace the annotations of the loaded detection
JSON with the fused ones; the images list is carried over unchanged. -/
def save_submit_json (bbox_ids labels : List ℤ) (data_ori : DetJson)
    (score_thr : ℚ) : Except String DetJson :=
  match fuse_annotations (build_pred_dict bbox_ids labels) score_thr
      data_ori.annotations with
  | Except.error e => Except.error e
  | Except.ok ann_new => Except.ok { data_ori with annotations := ann_new }

theorem fuse_annotations_ok (pred_dict : ℤ → Option ℤ) (score_thr : ℚ)
    (l : List Ann) (hcov : ∀ a ∈ l, (pred_dict a.id).isSome) :
    fuse_annotations pred_dict score_thr l = Except.ok
      ((l.filter (fun a => decide (score_thr ≤ a.score))).map
        (fun a => { a with category_id := (pred_dict a.id).getD 0 })) := by
  induction l with
  | nil => rfl
  | cons a t ih =>
    obtain ⟨v, hv⟩ := Option.isSome_iff_exists.1 (hcov a (List.mem_cons_self a t))
    have ht := ih (fun x hx => hcov x (List.mem_cons_of_mem a hx))
    by_cases hs : a.score < score_thr
    · have hfilter : decide (score_thr ≤ a.score) = false := by
        simpa [decide_eq_false_iff_not] using not_le.2 hs
      simp [fuse_annotations, hv, hs, ht, hfilter]
    · have hfilter : decide (score_thr ≤ a.score) = true := by
        simpa using not_lt.1 hs
      simp [fuse_annotations, hv, hs, ht, hfilter]

/-- C2: when the bbox-id → label dict covers every annotation id,
`save_submit_json` succeeds and its output keeps the images list and all
annotation fields unchanged except that the annotations are filtered to
those with `score ≥ score_thr` (in input order) and each survivor's
`category_id` is overwritten with the label mapped from its id. -/
theorem save_submit_json_fuses (bbox_ids labels : List ℤ) (d : DetJson)
    (score_thr : ℚ)
    (hcov : ∀ a ∈ d.annotations, (build_pred_dict bbox_ids labels a.id).isSome) :
    save_submit_json bbox_ids labels d score_thr = Except.ok
      { d with annotations :=
          ((d.annotations.filter (fun a => decide (score_thr ≤ a.score))).map
            (fun a =>
              { a with category_id := (build_pred_dict bbox_ids labels a.id).getD 0 })) } := by
  rw [save_submit_json, fuse_annotations_ok _ _ _ hcov]

/-- Witness for C2 at the spec's concrete scenario: one annotation with id
5, score 0.8 and category 0, fused with the map `{5 ↦ 10}` at threshold
0.1: the output annotation keeps all fields but carries `category_id = 10`. -/
theorem save_submit_json_fuses_witness :
    save_submit_json [5] [10]
        ⟨[⟨"a.jpg", 1⟩], [⟨1, 5, [0, 0, 2, 2], 0, 4/5⟩]⟩ (1/10) = Except.ok
      ⟨[⟨"a.jpg", 1⟩],
        (([⟨1, 5, [0, 0, 2, 2], 0, 4/5⟩] : List Ann).filter
            (fun a => decide ((1:ℚ)/10 ≤ a.score))).map
          (fun a => { a with category_id := (build_pred_dict [5] [10] a.id).getD 0 })⟩ :=
  save_submit_json_fuses [5] [10]
    ⟨[⟨"a.jpg", 1⟩], [⟨1, 5, [0, 0, 2, 2], 0, 4/5⟩]⟩ (1/10) (by decide)

def exceptIsError {ε α : Type} : Except ε α → Bool
  | Except.error _ => true
  | Except.ok _ => false

theorem fuse_annotations_error_iff (pred_dict : ℤ → Option ℤ)
    (score_thr : ℚ) (l : List Ann) :
    exceptIsError (fuse_annotations pred_dict score_thr l) = true ↔
      ∃ a ∈ l, pred_dict a.id = none := by
  induction l with
  | nil => simp [fuse_annotations, exceptIsError]
  | cons a t ih =>
    cases hv : pred_dict a.id with
    | none => simp [fuse_annotations, hv, exceptIsError]
    | some v =>
      by_cases hs : a.score < score_thr
      · rw [show fuse_annotations pred_dict score_thr (a :: t) =
            fuse_annotations pred_dict score_thr t by
          simp [fuse_annotations, hv, hs]]
        rw [ih]
        simp [hv]
      · cases hrest : fuse_annotations pred_dict score_thr t with
        | error e =>
          have : exceptIsError (fuse_annotations pred_dict score_thr (a :: t)) = true := by
            simp [fuse_annotations, hv, hs, hrest, exceptIsError]
          rw [this]
          rw [hrest] at ih
          simp only [exceptIsError] at ih
          obtain ⟨x, hx, hnone⟩ := ih.1 (by trivial)
          simp only [true_iff]
          exact ⟨x, List.mem_cons_of_mem a hx, hnone⟩
        | ok tail =>
          have : exceptIsError (fuse_annotations pred_dict score_thr (a :: t)) = false := by
            simp [fuse_annotations, hv, hs, hrest, exceptIsError]
          rw [this]
          rw [hrest] at ih
          simp only [exceptIsError] at ih
          simp only [Bool.false_eq_true, false_iff] at ih ⊢
          intro hex
          rcases hex with ⟨x, hx, hnone⟩
          rcases List.mem_cons.1 hx with rfl | hxt
          · rw [hv] at hnone; cases hnone
          · exact ih ⟨x, hxt, hnone⟩

/-- C3: `save_submit_json` fails with a fatal error (and hence writes no
output) if and only if some annotation of the loaded detection JSON has an
id absent from the bbox-id → label dict; when every id is covered it
completes without error. -/
theorem save_submit_json_error_iff (bbox_ids labels : List ℤ) (d : DetJson)
    (score_thr : ℚ) :
    exceptIsError (save_submit_json bbox_ids labels d score_thr) = true ↔
      ∃ a ∈ d.annotations, build_pred_dict bbox_ids labels a.id = none := by
  rw [← fuse_annotations_error_iff (build_pred_dict bbox_ids labels) score_thr
    d.annotations]
  rw [save_submit_json]
  cases h : fuse_annotations (build_pred_dict bbox_ids labels) score_thr
      d.annotations with
  | error e => simp [exceptIsError]
  | ok tail => simp [exceptIsError]

/-! ### `infer_labels` (inference.py)

For each query embedding, the reference embeddings are sorted by ascending
Euclidean distance (`LpDistance` with p=2) and the reference labels are
permuted accordingly (`ref_labels[mat_inds]`). For `k = 1` the code takes
`pred_labels[:, 0]` directly and `continue`s; for `k > 1` it takes the
majority label of the first `k` entries (`Counter.most_common`) and then
remaps it with `label_mapping`. -/

/-- Squared Euclidean distance between two embedding vectors.
Modelled from the spec: `LpDistance` (mvt/cores/metric_ops.py) is not under
src/; the spec says the matrix is "Euclidean, i.e., an Lp-distance with
p=2". The square of that distance is used here: it is strictly monotone in
the distance, so the ascending argsort of a row is unchanged. -/
def sqDist (a b : List ℚ) : ℚ :=
  ((a.zip b).map (fun p => (p.1 - p.2) * (p.1 - p.2))).sum

/-- Insert index `i` into a list of indices sorted by ascending `key`,
after all indices with a strictly smaller key and before the rest. -/
def insertSorted (key : ℕ → ℚ) (i : ℕ) : List ℕ → List ℕ
  | [] => [i]
  | j :: rest =>
      if key j < key i then j :: insertSorted key i rest else i :: j :: rest

/-- `np.argsort` of a 1-d array: the indices `0, …, n-1` ordered by
ascending key (a deterministic sort; ties keep the smaller index first,
matching the spec's "arbitrary-but-deterministic" tie order). -/
def argsort (keys : List ℚ) : List ℕ :=
  (List.range keys.length).foldr
    (fun i acc => insertSorted (fun n => keys.getD n 0) i acc) []

/-- Count of `x` in `l` (one entry of a python `Counter`). -/
def countOcc (l : List ℤ) (x : ℤ) : ℕ :=
  (l.filter (fun y => decide (y = x))).length

/-- The distinct values of a list in first-occurrence order (the key order
of a python `Counter` built from it). -/
def firstOccAux (seen : List ℤ) : List ℤ → List ℤ
  | [] => []
  | x :: xs =>
      if x ∈ seen then firstOccAux seen xs else x :: firstOccAux (x :: seen) xs

/-- `Counter(l).most_common(1)[0][0]`: a value of `l` with the maximal
count; ties go to the value occurring first in `l`. -/
def most_common1 (l : List ℤ) : ℤ :=
  match firstOccAux [] l with
  | [] => 0
  | c :: cs =>
      cs.foldl (fun best x => if countOcc l best < countOcc l x then x else best) c

/-- `pred_labels = ref_labels[np.argsort(mat, axis=1)]`: for each query,
the reference labels ordered by ascending distance to it. -/
def pred_label_rows (qry_emb ref_emb : List (List ℚ)) (ref_labels : List ℤ) :
    List (List ℤ) :=
  qry_emb.map (fun q =>
    (argsort (ref_emb.map (fun r => sqDist q r))).map
      (fun i => ref_labels.getD i 0))

/-- The `k > 1` branch of `infer_labels`: majority vote over the `k`
nearest reference labels, then conversion to query space by
`label_mapping`. -/
def infer_labels_vote_path (label_mapping : ℤ → ℤ)
    (qry_emb ref_emb : List (List ℚ)) (ref_labels : List ℤ) (k : ℕ) :
    List ℤ :=
  (pred_label_rows qry_emb ref_emb ref_labels).map
    (fun row => label_mapping (most_common1 (row.take k)))

/-- The `labels_top_k` entry computed by `infer_labels` for one `k` of the
rank list: the `k == 1` branch returns `pred_labels[:, 0]` and `continue`s
(no `label_mapping` applied); every other `k` goes through the vote path. -/
def infer_labels_top_k (label_mapping : ℤ → ℤ)
    (qry_emb ref_emb : List (List ℚ)) (ref_labels : List ℤ) (k : ℕ) :
    List ℤ :=
  if k = 1 then
    (pred_label_rows qry_emb ref_emb ref_labels).map (fun row => row.getD 0 0)
  else
    infer_labels_vote_path label_mapping qry_emb ref_emb ref_labels k

/-- The label mapping of the spec's concrete scenario: `{1 ↦ 10, 2 ↦ 11}`. -/
def scenario_label_mapping : ℤ → ℤ :=
  fun l => if l = 1 then 10 else if l = 2 then 11 else 0

/-- C1 (code bug): at the spec's scenario — reference embeddings
`[[0,0],[10,10]]` labeled `[1,2]`, query `[[0.1,0.1]]`, mapping
`{1 ↦ 10, 2 ↦ 11}` — the `k = 1` branch of `infer_labels` returns the raw
reference-space label `1`, while the majority-vote path evaluated at
`k = 1` (and the spec) produce the mapped query-space label `10`: the
`k == 1` shortcut skips `label_mapping`, so the claimed equivalence fails. -/
theorem infer_labels_k1_skips_label_mapping :
    infer_labels_top_k scenario_label_mapping [[1/10, 1/10]]
        [[0, 0], [10, 10]] [1, 2] 1 = [1] ∧
    infer_labels_vote_path scenario_label_mapping [[1/10, 1/10]]
        [[0, 0], [10, 10]] [1, 2] 1 = [10] ∧
    (1 : ℤ) ≠ 10 := by
  refine ⟨?_, ?_, by decide⟩ <;> with_unfolding_all decide

/-! ### `GtBBoxesFilter` (transforms.py)

Filters degenerate ground-truth boxes: keep a box when its width and
height both exceed `min_size` and its stabilised aspect ratio
`max(w/(h+1e-16), h/(w+1e-16))` is strictly below `max_aspect_ratio`;
`gt_labels` is indexed with the same boolean mask and nothing else in the
record is touched. -/

def box_w (b : Box) : ℚ := b.x2 - b.x1

def box_h (b : Box) : ℚ := b.y2 - b.y1

/-- The numeric stabiliser `1e-16` of the aspect-ratio denominator. -/
def eps16 : ℚ := 1 / 10 ^ 16

/-- `ar = np.maximum(w / (h + 1e-16), h / (w + 1e-16))` for one box. -/
def aspect_ratio_stab (b : Box) : ℚ :=
  max (box_w b / (box_h b + eps16)) (box_h b / (box_w b + eps16))

/-- One entry of the `valid` mask of `GtBBoxesFilter.__call__`. -/
def gt_valid (min_size max_aspect_ratio : ℚ) (b : Box) : Bool :=
  decide (min_size < box_w b) && decide (min_size < box_h b) &&
    decide (aspect_ratio_stab b < max_aspect_ratio)

/-- A sample record as seen by `GtBBoxesFilter`: the two fields it touches
plus `rest`, which stands for every other key of the record dict. -/
structure FilterRecord (ρ : Type) where
  gt_bboxes : List Box
  gt_labels : List ℤ
  rest : ρ
deriving DecidableEq

/-- `GtBBoxesFilter.__call__`. -/
def gt_bboxes_filter {ρ : Type} (min_size max_aspect_ratio : ℚ)
    (results : FilterRecord ρ) : FilterRecord ρ :=
  let valid := results.gt_bboxes.map (gt_valid min_size max_aspect_ratio)
  { results with
      gt_bboxes := maskFilter results.gt_bboxes valid,
      gt_labels := maskFilter results.gt_labels valid }

theorem maskFilter_cons {α : Type} (x : α) (xs : List α) (b : Bool)
    (ms : List Bool) :
    maskFilter (x :: xs) (b :: ms) =
      if b then x :: maskFilter xs ms else maskFilter xs ms := by
  cases b <;> simp [maskFilter]

theorem maskFilter_zip_same_mask {α β : Type} (p : α → Bool) :
    ∀ (xs : List α) (ys : List β), xs.length = ys.length →
      (maskFilter xs (xs.map p)).zip (maskFilter ys (xs.map p)) =
        (xs.zip ys).filter (fun q => p q.1) := by
  intro xs
  induction xs with
  | nil =>
    intro ys h
    cases ys with
    | nil => rfl
    | cons y t => cases h
  | cons x xs ih =>
    intro ys h
    cases ys with
    | nil => cases h
    | cons y t =>
      have ht : xs.length = t.length := by simpa using h
      by_cases hp : p x
      · simp [maskFilter_cons, hp, ih t ht]
      · simp [maskFilter_cons, hp, ih t ht]

/-- C10: `GtBBoxesFilter` keeps exactly the boxes with width and height
strictly above `min_size` and stabilised aspect ratio strictly below
`max_aspect_ratio`; it filters `gt_labels` with the same index mask, so
(when boxes and labels are aligned on input) the surviving box/label pairs
are exactly the surviving boxes paired with their original labels; every
other field of the record is unmodified. -/
theorem gt_bboxes_filter_spec {ρ : Type} (min_size max_aspect_ratio : ℚ)
    (r : FilterRecord ρ)
    (hlen : r.gt_bboxes.length = r.gt_labels.length) :
    (gt_bboxes_filter min_size max_aspect_ratio r).gt_bboxes =
        r.gt_bboxes.filter (gt_valid min_size max_aspect_ratio) ∧
    ((gt_bboxes_filter min_size max_aspect_ratio r).gt_bboxes).zip
        ((gt_bboxes_filter min_size max_aspect_ratio r).gt_labels) =
        (r.gt_bboxes.zip r.gt_labels).filter
          (fun q => gt_valid min_size max_aspect_ratio q.1) ∧
    (gt_bboxes_filter min_size max_aspect_ratio r).rest = r.rest := by
  refine ⟨?_, ?_, rfl⟩
  · exact maskFilter_self_map _ _
  · exact maskFilter_zip_same_mask _ _ _ hlen

/-- Witness for C10: a record with one wide valid box and one degenerate
box; only the first box/label pair survives and the carried `rest` field
is untouched. -/
theorem gt_bboxes_filter_spec_witness :
    ((gt_bboxes_filter (ρ := ℤ) 2 20
        ⟨[⟨0, 0, 8, 8⟩, ⟨0, 0, 1, 1⟩], [7, 9], 42⟩).gt_bboxes =
      ([⟨0, 0, 8, 8⟩, ⟨0, 0, 1, 1⟩] : List Box).filter (gt_valid 2 20)) ∧
    (((gt_bboxes_filter (ρ := ℤ) 2 20
        ⟨[⟨0, 0, 8, 8⟩, ⟨0, 0, 1, 1⟩], [7, 9], 42⟩).gt_bboxes).zip
        ((gt_bboxes_filter (ρ := ℤ) 2 20
        ⟨[⟨0, 0, 8, 8⟩, ⟨0, 0, 1, 1⟩], [7, 9], 42⟩).gt_labels) =
      (([⟨0, 0, 8, 8⟩, ⟨0, 0, 1, 1⟩] : List Box).zip ([7, 9] : List ℤ)).filter
        (fun q => gt_valid 2 20 q.1)) ∧
    (gt_bboxes_filter (ρ := ℤ) 2 20
        ⟨[⟨0, 0, 8, 8⟩, ⟨0, 0, 1, 1⟩], [7, 9], 42⟩).rest = 42 :=
  gt_bboxes_filter_spec 2 20 ⟨[⟨0, 0, 8, 8⟩, ⟨0, 0, 1, 1⟩], [7, 9], 42⟩ (by decide)

/-! ### `MaskTestMixin.simple_test_mask` (test_mixins.py)

The mask forward pass (`self._mask_forward`) and the per-image decode
(`self.mask_head.get_seg_masks`) are external model collaborators; they are
taken as opaque function parameters of the context below.  The theorem for
the all-empty short circuit is quantified over them, so the result provably
does not depend on (and hence never invokes) either. -/

/-- A region of interest: image index paired with a box, as produced by
`bbox2roi`. Modelled from the spec: `bbox2roi` (mvt/cores) is not under
src/; the spec says the mixin "computes mask RoIs" from the per-image box
lists, which concatenates the boxes tagged with their image index. -/
def bbox2roi (bbox_list : List (List Box)) : List (ℕ × Box) :=
  (bbox_list.enum.map (fun p => p.2.map (fun b => (p.1, b)))).flatten

/-- `det_bboxes[i][:, :4] * scale_factors[i]`. -/
def scaleBox (s : ℚ) (b : Box) : Box :=
  ⟨b.x1 * s, b.y1 * s, b.x2 * s, b.y2 * s⟩

/-- `mask_pred.split(num_mask_roi_per_img, 0)`. -/
def splitByCounts {ρ : Type} : List ρ → List ℕ → List (List ρ)
  | _, [] => []
  | l, n :: ns => l.take n :: splitByCounts (l.drop n) ns

/-- The mask head collaborators used by `simple_test_mask`: the number of
classes, the batched mask forward pass (per-RoI predictions) and the
per-image decode into per-class lists. -/
structure MaskTestCtx (ρ σ : Type) where
  num_classes : ℕ
  mask_forward : List (ℕ × Box) → List ρ
  get_seg_masks : List ρ → List Box → List ℤ → List (List σ)

/-- `MaskTestMixin.simple_test_mask`: short-circuit to all-empty per-class
results when every image's detected-box tensor is empty; otherwise rescale
boxes (when `rescale` is set), run the mask forward pass on the
concatenated RoIs, split the predictions back per image, and decode each
image with surviving boxes (empty images still get all-empty lists). -/
def simple_test_mask {ρ σ : Type} (ctx : MaskTestCtx ρ σ)
    (scale_factors : List ℚ) (det_bboxes : List (List Box))
    (det_labels : List (List ℤ)) (rescale : Bool) : List (List (List σ)) :=
  if det_bboxes.all (fun det_bbox => decide (det_bbox.length = 0)) then
    det_bboxes.map (fun _ => List.replicate ctx.num_classes [])
  else
    let bboxes_r := (det_bboxes.zip scale_factors).map
      (fun p => if rescale then p.1.map (scaleBox p.2) else p.1)
    let mask_rois := bbox2roi bboxes_r
    let mask_pred := ctx.mask_forward mask_rois
    let mask_preds := splitByCounts mask_pred (det_bboxes.map (fun l => l.length))
    (List.range det_bboxes.length).map (fun i =>
      if (det_bboxes.getD i []).length = 0 then
        List.replicate ctx.num_classes []
      else
        ctx.get_seg_masks (mask_preds.getD i []) (bboxes_r.getD i [])
          (det_labels.getD i []))

/-- C9: when every image's detected-box list is empty, `simple_test_mask`
returns, for each image, `num_classes` empty per-class lists — and the
result is the same for every choice of `mask_forward` and `get_seg_masks`,
i.e. neither the mask forward pass nor the per-image decode is consulted. -/
theorem simple_test_mask_all_empty {ρ σ : Type} (ctx : MaskTestCtx ρ σ)
    (scale_factors : List ℚ) (det_bboxes : List (List Box))
    (det_labels : List (List ℤ)) (rescale : Bool)
    (hempty : ∀ det_bbox ∈ det_bboxes, det_bbox = []) :
    simple_test_mask ctx scale_factors det_bboxes det_labels rescale =
      det_bboxes.map (fun _ => List.replicate ctx.num_classes []) := by
  have hall : det_bboxes.all (fun det_bbox => decide (det_bbox.length = 0)) = true := by
    rw [List.all_eq_true]
    intro l hl
    simp [hempty l hl]
  rw [simple_test_mask, if_pos hall]

/-- Witness for C9: two images, both with empty box tensors, with concrete
opaque collaborators; the result is two lists of three empty class lists. -/
theorem simple_test_mask_all_empty_witness :
    simple_test_mask (ρ := ℕ) (σ := ℕ)
        ⟨3, fun _ => [], fun _ _ _ => []⟩ [1, 1] [[], []] [[], []] true =
      ([[], []] : List (List Box)).map (fun _ => List.replicate 3 []) :=
  simple_test_mask_all_empty ⟨3, fun _ => [], fun _ _ _ => []⟩ [1, 1]
    [[], []] [[], []] true (by decide)

/-! ### `JointRandomCrop` (transforms.py)

Crops the image at a sampled offset, translates box coordinates by the
offset and clips them to the cropped window; when `allow_negative_crop`
is false and no ground-truth box survives with positive width and height,
the record is rejected (`None`). The sampled offsets `offset_h`/`offset_w`
(drawn by `np.random.randint(0, margin + 1)`) are explicit parameters. -/

/-- An image array: height, width and the pixel at each coordinate (the
channel axis carries through slicing unchanged and is elided). -/
structure Image where
  h : ℕ
  w : ℕ
  pix : ℕ → ℕ → ℕ

/-- The numpy slice `img[y1:y2, x1:x2]` with numpy's clamping semantics. -/
def imgCrop (img : Image) (y1 y2 x1 x2 : ℕ) : Image :=
  { h := min y2 img.h - min y1 img.h,
    w := min x2 img.w - min x1 img.w,
    pix := fun i j => img.pix (min y1 img.h + i) (min x1 img.w + j) }

/-- Translate one box by `-[offset_w, offset_h]` and clip its x (resp. y)
coordinates to `[0, w]` (resp. `[0, h]`), as the bbox loop of
`JointRandomCrop.__call__` does with the cropped `img_shape`. -/
def translate_clip (offset_w offset_h : ℕ) (w h : ℕ) (b : Box) : Box :=
  ⟨min (max (b.x1 - (offset_w : ℚ)) 0) (w : ℚ),
   min (max (b.y1 - (offset_h : ℚ)) 0) (h : ℚ),
   min (max (b.x2 - (offset_w : ℚ)) 0) (w : ℚ),
   min (max (b.y2 - (offset_h : ℚ)) 0) (h : ℚ)⟩

/-- One entry of `valid_inds`: the box keeps strictly positive extent. -/
def box_valid (b : Box) : Bool :=
  decide (b.x1 < b.x2) && decide (b.y1 < b.y2)

/-- A sample record as seen by `JointRandomCrop` with
`img_fields = ["img"]` and `bbox_fields = ["gt_bboxes"]` (whose label key
is `gt_labels`). -/
structure CropRecord where
  img : Image
  gt_bboxes : List Box
  gt_labels : List ℤ

/-- `JointRandomCrop.__call__` at resolved random offsets. -/
def joint_random_crop (results : CropRecord) (crop_size : ℕ × ℕ)
    (allow_negative_crop : Bool) (offset_h offset_w : ℕ) :
    Option CropRecord :=
  let crop_y1 := offset_h
  let crop_y2 := offset_h + crop_size.1
  let crop_x1 := offset_w
  let crop_x2 := offset_w + crop_size.2
  let img := imgCrop results.img crop_y1 crop_y2 crop_x1 crop_x2
  let bboxes := results.gt_bboxes.map
    (translate_clip offset_w offset_h img.w img.h)
  let valid_inds := bboxes.map box_valid
  if !valid_inds.any id && !allow_negative_crop then none
  else
    some { img := img,
           gt_bboxes := maskFilter bboxes valid_inds,
           gt_labels := maskFilter results.gt_labels valid_inds }

/-- C8: for a record whose bbox fields include `gt_bboxes`,
`JointRandomCrop` returns the `None` reject sentinel exactly when
`allow_negative_crop` is false and no ground-truth box, after translation
by the sampled offset and clipping to the crop window, retains strictly
positive width and height; in every other case it returns the cropped
record. -/
theorem valid_any_eq_false_iff (ow oh w h : ℕ) (bbs : List Box) :
    (((bbs.map (translate_clip ow oh w h)).map box_valid).any id = false) ↔
      ∀ b ∈ bbs,
        ¬(0 < box_w (translate_clip ow oh w h b) ∧
          0 < box_h (translate_clip ow oh w h b)) := by
  rw [List.any_eq_false]
  constructor
  · intro hf b hb hc
    have hv := hf _ (List.mem_map_of_mem _ (List.mem_map_of_mem _ hb))
    apply hv
    simp only [box_w, box_h, sub_pos] at hc
    simp only [id_eq, box_valid, Bool.and_eq_true, decide_eq_true_eq]
    exact hc
  · intro hall v hv
    obtain ⟨bv, hbv, rfl⟩ := List.mem_map.1 hv
    obtain ⟨b, hb, rfl⟩ := List.mem_map.1 hbv
    intro htrue
    simp only [id_eq, box_valid, Bool.and_eq_true, decide_eq_true_eq] at htrue
    apply hall b hb
    simp only [box_w, box_h, sub_pos]
    exact htrue

/-- C8: for a record whose bbox fields include `gt_bboxes`,
`JointRandomCrop` returns the `None` reject sentinel exactly when
`allow_negative_crop` is false and no ground-truth box, after translation
by the sampled offset and clipping to the crop window, retains strictly
positive width and height; in every other case it returns the cropped
record. -/
theorem joint_random_crop_none_iff (results : CropRecord)
    (crop_size : ℕ × ℕ) (allow_negative_crop : Bool)
    (offset_h offset_w : ℕ)
    (hoh : offset_h ≤ results.img.h - crop_size.1)
    (how : offset_w ≤ results.img.w - crop_size.2) :
    (joint_random_crop results crop_size allow_negative_crop
        offset_h offset_w = none ↔
      (allow_negative_crop = false ∧
        ∀ b ∈ results.gt_bboxes,
          ¬(0 < box_w (translate_clip offset_w offset_h
                (min (offset_w + crop_size.2) results.img.w -
                  min offset_w results.img.w)
                (min (offset_h + crop_size.1) results.img.h -
                  min offset_h results.img.h) b) ∧
            0 < box_h (translate_clip offset_w offset_h
                (min (offset_w + crop_size.2) results.img.w -
                  min offset_w results.img.w)
                (min (offset_h + crop_size.1) results.img.h -
                  min offset_h results.img.h) b)))) := by
  have main : ∀ (w h : ℕ) (rec : CropRecord),
      ((if !(((results.gt_bboxes.map (translate_clip offset_w offset_h w h)).map
              box_valid).any id) && !allow_negative_crop
          then (none : Option CropRecord) else some rec) = none) ↔
        (allow_negative_crop = false ∧ ∀ b ∈ results.gt_bboxes,
          ¬(0 < box_w (translate_clip offset_w offset_h w h b) ∧
            0 < box_h (translate_clip offset_w offset_h w h b))) := by
    intro w h rec
    by_cases hc : (!(((results.gt_bboxes.map (translate_clip offset_w offset_h w h)).map
        box_valid).any id) && !allow_negative_crop) = true
    · rw [if_pos hc]
      simp only [Bool.and_eq_true, Bool.not_eq_true'] at hc
      exact iff_of_true rfl ⟨hc.2, (valid_any_eq_false_iff _ _ _ _ _).1 hc.1⟩
    · rw [if_neg hc]
      simp only [Bool.and_eq_true, Bool.not_eq_true'] at hc
      refine iff_of_false (by simp) ?_
      rintro ⟨hneg, hall⟩
      exact hc ⟨(valid_any_eq_false_iff _ _ _ _ _).2 hall, hneg⟩
  simp only [joint_random_crop, imgCrop]
  exact main _ _ _

/-- Witness for C8: a 4×4 image with one box, cropped to 2×2 at offset
`(0, 0)` with `allow_negative_crop = false`; the box survives, so the
result is not the reject sentinel. -/
theorem joint_random_crop_none_iff_witness :
    joint_random_crop ⟨⟨4, 4, fun _ _ => 0⟩, [⟨0, 0, 3, 3⟩], [1]⟩
        (2, 2) false 0 0 = none ↔
      (false = false ∧
        ∀ b ∈ [(⟨0, 0, 3, 3⟩ : Box)],
          ¬(0 < box_w (translate_clip 0 0 (min (0 + 2) 4 - min 0 4)
                (min (0 + 2) 4 - min 0 4) b) ∧
            0 < box_h (translate_clip 0 0 (min (0 + 2) 4 - min 0 4)
                (min (0 + 2) 4 - min 0 4) b))) :=
  joint_random_crop_none_iff ⟨⟨4, 4, fun _ _ => 0⟩, [⟨0, 0, 3, 3⟩], [1]⟩
    (2, 2) false 0 0 (by decide) (by decide)

/-! ### `MinIoURandomCrop` (transforms.py)

One accepted attempt of the inner retry loop, entered with a sampled
non-keep-original mode `min_iou` and a formed integer candidate patch; the
steps before the patch exists (size and aspect-ratio resampling) only
`continue` without touching the record and are therefore outside the
modelled attempt. Patch coordinates are nonnegative by construction
(`left`/`top` sampled from `[0, w-new_w]`/`[0, h-new_h]`). -/

/-- The integer crop patch
`np.array((int(left), int(top), int(left+new_w), int(top+new_h)))`. -/
structure Patch where
  x1 : ℤ
  y1 : ℤ
  x2 : ℤ
  y2 : ℤ
deriving DecidableEq

/-- Intersection over union of the crop patch with one box.
Modelled from the spec: `bbox_overlaps_np` (mvt/utils/bbox_util.py) is not
under src/; the spec describes the test as "every ground-truth box's IoU
with the crop patch": intersection area divided by union area (`ℚ`
division yields `0` when the union is `0`). -/
def iou (p : Patch) (b : Box) : ℚ :=
  let ix := max 0 (min (p.x2 : ℚ) b.x2 - max (p.x1 : ℚ) b.x1)
  let iy := max 0 (min (p.y2 : ℚ) b.y2 - max (p.y1 : ℚ) b.y1)
  let inter := ix * iy
  let areaP := ((p.x2 : ℚ) - (p.x1 : ℚ)) * ((p.y2 : ℚ) - (p.y1 : ℚ))
  let areaB := (b.x2 - b.x1) * (b.y2 - b.y1)
  inter / (areaP + areaB - inter)

/-- One entry of `is_center_of_bboxes_in_patch`: the box's center lies
strictly inside the patch. -/
def center_in_patch (p : Patch) (b : Box) : Bool :=
  decide ((p.x1 : ℚ) < (b.x1 + b.x2) / 2) &&
    decide ((p.y1 : ℚ) < (b.y1 + b.y2) / 2) &&
    decide ((b.x1 + b.x2) / 2 < (p.x2 : ℚ)) &&
    decide ((b.y1 + b.y2) / 2 < (p.y2 : ℚ))

/-- The per-box adjustment of an accepted crop: clip `x2, y2` from above to
the patch's corner, clip `x1, y1` from below, then translate by
`-patch[:2]`. -/
def crop_adjust_box (p : Patch) (b : Box) : Box :=
  ⟨max b.x1 (p.x1 : ℚ) - (p.x1 : ℚ), max b.y1 (p.y1 : ℚ) - (p.y1 : ℚ),
   min b.x2 (p.x2 : ℚ) - (p.x1 : ℚ), min b.y2 (p.y2 : ℚ) - (p.y1 : ℚ)⟩

/-- `img[patch[1]:patch[3], patch[0]:patch[2]]`. -/
def imgCropP (img : Image) (p : Patch) : Image :=
  imgCrop img p.y1.toNat p.y2.toNat p.x1.toNat p.x2.toNat

/-- A sample record as seen by `MinIoURandomCrop` with
`bbox_fields = ["gt_bboxes", "gt_bboxes_ignore"]`, labels under
`gt_labels` and instance masks under `gt_masks` (`gt_labels_ignore` and
`gt_masks_ignore` absent). Mask elements are opaque (`μ`): `PolygonMasks`
lives outside src/, so its `crop` is an opaque parameter below. -/
structure IouCropRecord (μ : Type) where
  img : Image
  gt_bboxes : List Box
  gt_labels : List ℤ
  gt_bboxes_ignore : List Box
  gt_masks : List μ

/-- One attempt of `MinIoURandomCrop.__call__`'s inner loop for a sampled
`min_iou` mode and a formed candidate patch: reject (`continue`) on a line
or point patch, on an IoU below the threshold, or (when ground-truth boxes
exist) when no box center falls inside the patch; otherwise filter each
bbox field by its center mask, clip and translate the survivors, index
labels and masks with `gt_bboxes`'s mask, and crop the image. -/
def min_iou_random_crop_attempt {μ : Type} (cropMask : Patch → μ → μ)
    (results : IouCropRecord μ) (min_iou : ℚ) (p : Patch) :
    Option (IouCropRecord μ) :=
  let boxes := results.gt_bboxes ++ results.gt_bboxes_ignore
  if p.x2 = p.x1 ∨ p.y2 = p.y1 then none
  else
    let overlaps := boxes.map (iou p)
    if 0 < overlaps.length ∧ overlaps.any (fun v => decide (v < min_iou)) then
      none
    else
      if 0 < boxes.length then
        let mask := boxes.map (center_in_patch p)
        if ¬mask.any id then none
        else
          some { img := imgCropP results.img p,
                 gt_bboxes :=
                   (maskFilter results.gt_bboxes
                     (results.gt_bboxes.map (center_in_patch p))).map
                     (crop_adjust_box p),
                 gt_labels :=
                   maskFilter results.gt_labels
                     (results.gt_bboxes.map (center_in_patch p)),
                 gt_bboxes_ignore :=
                   (maskFilter results.gt_bboxes_ignore
                     (results.gt_bboxes_ignore.map (center_in_patch p))).map
                     (crop_adjust_box p),
                 gt_masks :=
                   (maskFilter results.gt_masks
                     (results.gt_bboxes.map (center_in_patch p))).map
                     (cropMask p) }
      else
        some { results with img := imgCropP results.img p }

/-- C5: whenever an attempt of `MinIoURandomCrop` with a non-keep-original
sampled mode accepts (returns a cropped record) on an input with at least
one ground-truth box, the patch has IoU ≥ the sampled threshold with every
ground-truth box of the input, at least one box center lies strictly
inside the patch, and the surviving `gt_bboxes` are exactly the input
boxes whose centers lie inside the patch — clipped to the patch and
translated into patch coordinates — with `gt_labels` and `gt_masks`
indexed by the same center mask. -/
theorem min_iou_random_crop_accepts {μ : Type} (cropMask : Patch → μ → μ)
    (results : IouCropRecord μ) (min_iou : ℚ) (p : Patch)
    (out : IouCropRecord μ)
    (hboxes : results.gt_bboxes ++ results.gt_bboxes_ignore ≠ [])
    (hacc : min_iou_random_crop_attempt cropMask results min_iou p = some out) :
    (∀ b ∈ results.gt_bboxes ++ results.gt_bboxes_ignore, min_iou ≤ iou p b) ∧
    (∃ b ∈ results.gt_bboxes ++ results.gt_bboxes_ignore,
      center_in_patch p b = true) ∧
    out.gt_bboxes =
      (results.gt_bboxes.filter (center_in_patch p)).map (crop_adjust_box p) ∧
    out.gt_labels =
      maskFilter results.gt_labels (results.gt_bboxes.map (center_in_patch p)) ∧
    out.gt_masks =
      (maskFilter results.gt_masks
        (results.gt_bboxes.map (center_in_patch p))).map (cropMask p) := by
  rw [min_iou_random_crop_attempt] at hacc
  simp only at hacc
  split_ifs at hacc with h1 h2 h3 h4
  · -- accepted with ground-truth boxes present
    obtain rfl := Option.some.inj hacc
    push_neg at h2
    have hlen : 0 < (results.gt_bboxes ++ results.gt_bboxes_ignore).length :=
      List.length_pos.2 hboxes
    refine ⟨?_, ?_, ?_, rfl, rfl⟩
    · intro b hb
      have hnot := Bool.eq_false_iff.2 (h2 (by simpa using hlen))
      rw [List.any_eq_false] at hnot
      have := hnot (iou p b) (List.mem_map_of_mem _ hb)
      simpa [not_lt] using this
    · obtain ⟨v, hv, hvt⟩ := List.any_eq_true.1 h4
      obtain ⟨b, hb, rfl⟩ := List.mem_map.1 hv
      exact ⟨b, hb, by simpa using hvt⟩
    · rw [maskFilter_self_map]
  · -- the no-ground-truth-box branch contradicts `hboxes`
    exact absurd (List.length_pos.2 hboxes) h3

/-- Witness for C5: a 10×10 image with one box `[1,1,5,5]` (label 3, one
opaque mask element), threshold `1/10`, accepted patch `[0,0,6,6]`; the
attempt accepts and, the box's center being inside, the survivor is the
clipped translated box with its label and mask. -/
theorem min_iou_random_crop_accepts_witness :
    (∀ b ∈ ([⟨1, 1, 5, 5⟩] : List Box) ++ [],
      (1 : ℚ)/10 ≤ iou ⟨0, 0, 6, 6⟩ b) ∧
    (∃ b ∈ ([⟨1, 1, 5, 5⟩] : List Box) ++ [],
      center_in_patch ⟨0, 0, 6, 6⟩ b = true) ∧
    (IouCropRecord.gt_bboxes
        ⟨imgCropP ⟨10, 10, fun _ _ => 0⟩ ⟨0, 0, 6, 6⟩,
         (maskFilter [⟨1, 1, 5, 5⟩]
           (([⟨1, 1, 5, 5⟩] : List Box).map
             (center_in_patch ⟨0, 0, 6, 6⟩))).map
           (crop_adjust_box ⟨0, 0, 6, 6⟩),
         maskFilter [3]
           (([⟨1, 1, 5, 5⟩] : List Box).map (center_in_patch ⟨0, 0, 6, 6⟩)),
         [], [(0 : ℕ)]⟩ =
      (([⟨1, 1, 5, 5⟩] : List Box).filter
        (center_in_patch ⟨0, 0, 6, 6⟩)).map (crop_adjust_box ⟨0, 0, 6, 6⟩)) ∧
    (IouCropRecord.gt_labels
        ⟨imgCropP ⟨10, 10, fun _ _ => 0⟩ ⟨0, 0, 6, 6⟩,
         (maskFilter [⟨1, 1, 5, 5⟩]
           (([⟨1, 1, 5, 5⟩] : List Box).map
             (center_in_patch ⟨0, 0, 6, 6⟩))).map
           (crop_adjust_box ⟨0, 0, 6, 6⟩),
         maskFilter [3]
           (([⟨1, 1, 5, 5⟩] : List Box).map (center_in_patch ⟨0, 0, 6, 6⟩)),
         [], [(0 : ℕ)]⟩ =
      maskFilter [3]
        (([⟨1, 1, 5, 5⟩] : List Box).map (center_in_patch ⟨0, 0, 6, 6⟩))) ∧
    (IouCropRecord.gt_masks
        ⟨imgCropP ⟨10, 10, fun _ _ => 0⟩ ⟨0, 0, 6, 6⟩,
         (maskFilter [⟨1, 1, 5, 5⟩]
           (([⟨1, 1, 5, 5⟩] : List Box).map
             (center_in_patch ⟨0, 0, 6, 6⟩))).map
           (crop_adjust_box ⟨0, 0, 6, 6⟩),
         maskFilter [3]
           (([⟨1, 1, 5, 5⟩] : List Box).map (center_in_patch ⟨0, 0, 6, 6⟩)),
         [], [(0 : ℕ)]⟩ =
      (maskFilter [(0 : ℕ)]
        (([⟨1, 1, 5, 5⟩] : List Box).map
          (center_in_patch ⟨0, 0, 6, 6⟩))).map
        ((fun _ m => m) (⟨0, 0, 6, 6⟩ : Patch))) :=
  min_iou_random_crop_accepts (fun _ m => m)
    ⟨⟨10, 10, fun _ _ => 0⟩, [⟨1, 1, 5, 5⟩], [3], [], [(0 : ℕ)]⟩
    ((1 : ℚ)/10) ⟨0, 0, 6, 6⟩ _ (by decide) (by with_unfolding_all rfl)

/-! ### `MosaicPipeline` (transforms.py)

Composes four independently pipelined tiles onto a square canvas of side
`2*cxy`, where
`cxy = max(shapes[0][0], shapes[1][0], shapes[0][1], shapes[2][1])` — the
heights of the two top tiles and the widths of the two left tiles (exactly
the values that keep the four placement offsets nonnegative). Each tile is
pasted with `canvas[y1:y2, x1:x2] = results[key]`, a numpy assignment that
only succeeds when the tile fits inside the canvas, i.e. when
`w1, h2, w3, h3 ≤ cxy` as well (the slice is clipped to the canvas, so an
oversized tile raises a shape-mismatch `ValueError`); the embedding
returns `none` in that case. Boxes are translated by their tile's
placement offset and the box/label arrays concatenated. -/

/-- One tile after its individual pipeline: its `pad_shape` and its
ground-truth boxes and labels. -/
structure Tile where
  pad_h : ℕ
  pad_w : ℕ
  gt_bboxes : List Box
  gt_labels : List ℤ
deriving DecidableEq

/-- `cxy = max(shapes[0][0], shapes[1][0], shapes[0][1], shapes[2][1])`. -/
def mosaic_cxy (t0 t1 t2 : Tile) : ℕ :=
  max (max t0.pad_h t1.pad_h) (max t0.pad_w t2.pad_w)

/-- `bboxes[:, 0::2] += x1; bboxes[:, 1::2] += y1` for one tile. -/
def translate_boxes (dx dy : ℕ) (bs : List Box) : List Box :=
  bs.map (fun b =>
    ⟨b.x1 + (dx : ℚ), b.y1 + (dy : ℚ), b.x2 + (dx : ℚ), b.y2 + (dy : ℚ)⟩)

/-- The output record fields of `MosaicPipeline.__call__` relevant to the
canvas and the annotation arrays. -/
structure MosaicOut where
  canvas_h : ℕ
  canvas_w : ℕ
  gt_bboxes : List Box
  gt_labels : List ℤ
deriving DecidableEq

/-- `MosaicPipeline.__call__` on the four pipelined tiles: tile 0 top-left
at `(cxy-w0, cxy-h0)`, tile 1 top-right at `(cxy, cxy-h1)`, tile 2
bottom-left at `(cxy-w2, cxy)`, tile 3 bottom-right at `(cxy, cxy)`;
`none` when a paste would fail its numpy shape check. -/
def mosaic_pipeline (t0 t1 t2 t3 : Tile) : Option MosaicOut :=
  let cxy := mosaic_cxy t0 t1 t2
  if t1.pad_w ≤ cxy ∧ t2.pad_h ≤ cxy ∧ t3.pad_w ≤ cxy ∧ t3.pad_h ≤ cxy then
    some { canvas_h := 2 * cxy,
           canvas_w := 2 * cxy,
           gt_bboxes :=
             translate_boxes (cxy - t0.pad_w) (cxy - t0.pad_h) t0.gt_bboxes ++
             translate_boxes cxy (cxy - t1.pad_h) t1.gt_bboxes ++
             translate_boxes (cxy - t2.pad_w) cxy t2.gt_bboxes ++
             translate_boxes cxy cxy t3.gt_bboxes,
           gt_labels :=
             t0.gt_labels ++ t1.gt_labels ++ t2.gt_labels ++ t3.gt_labels }
  else none

/-- `2 *` the maximum dimension over all four tiles, as the claim words
the canvas side. -/
def mosaic_side_claim (t0 t1 t2 t3 : Tile) : ℕ :=
  2 * max (max (max t0.pad_h t0.pad_w) (max t1.pad_h t1.pad_w))
          (max (max t2.pad_h t2.pad_w) (max t3.pad_h t3.pad_w))

/-- C6: whenever `MosaicPipeline` successfully composes the four
pipelined tiles, the canvas is a square of side twice the maximum
dimension of the four tiles, each tile's boxes are translated by the
tile's placement offset and concatenated (in tile order) into the output
box array, labels are concatenated likewise, and the output counts are
the sums of the per-tile counts — no loss or duplication. -/
theorem mosaic_pipeline_spec (t0 t1 t2 t3 : Tile) (out : MosaicOut)
    (hout : mosaic_pipeline t0 t1 t2 t3 = some out) :
    out.canvas_h = mosaic_side_claim t0 t1 t2 t3 ∧
    out.canvas_w = mosaic_side_claim t0 t1 t2 t3 ∧
    out.gt_bboxes =
      translate_boxes (mosaic_cxy t0 t1 t2 - t0.pad_w)
          (mosaic_cxy t0 t1 t2 - t0.pad_h) t0.gt_bboxes ++
        translate_boxes (mosaic_cxy t0 t1 t2)
          (mosaic_cxy t0 t1 t2 - t1.pad_h) t1.gt_bboxes ++
        translate_boxes (mosaic_cxy t0 t1 t2 - t2.pad_w)
          (mosaic_cxy t0 t1 t2) t2.gt_bboxes ++
        translate_boxes (mosaic_cxy t0 t1 t2) (mosaic_cxy t0 t1 t2)
          t3.gt_bboxes ∧
    out.gt_bboxes.length =
      t0.gt_bboxes.length + t1.gt_bboxes.length + t2.gt_bboxes.length +
        t3.gt_bboxes.length ∧
    out.gt_labels.length =
      t0.gt_labels.length + t1.gt_labels.length + t2.gt_labels.length +
        t3.gt_labels.length := by
  rw [mosaic_pipeline] at hout
  split_ifs at hout with hfit
  obtain rfl := Option.some.inj hout
  have hside : 2 * mosaic_cxy t0 t1 t2 = mosaic_side_claim t0 t1 t2 t3 := by
    rw [mosaic_side_claim, mosaic_cxy]
    rw [mosaic_cxy] at hfit
    omega
  refine ⟨hside, hside, rfl, ?_, ?_⟩
  · simp [translate_boxes]
    ring
  · simp
    ring

/-- Witness for C6: four 1×1 tiles, the first carrying one box; the mosaic
succeeds with a 2×2 canvas and the single translated box. -/
theorem mosaic_pipeline_spec_witness :
    (MosaicOut.canvas_h
        ⟨2, 2, translate_boxes 0 0 [⟨0, 0, 1, 1⟩] ++ translate_boxes 1 0 [] ++
          translate_boxes 0 1 [] ++ translate_boxes 1 1 [], [5]⟩ =
      mosaic_side_claim ⟨1, 1, [⟨0, 0, 1, 1⟩], [5]⟩ ⟨1, 1, [], []⟩
        ⟨1, 1, [], []⟩ ⟨1, 1, [], []⟩) ∧
    (MosaicOut.canvas_w
        ⟨2, 2, translate_boxes 0 0 [⟨0, 0, 1, 1⟩] ++ translate_boxes 1 0 [] ++
          translate_boxes 0 1 [] ++ translate_boxes 1 1 [], [5]⟩ =
      mosaic_side_claim ⟨1, 1, [⟨0, 0, 1, 1⟩], [5]⟩ ⟨1, 1, [], []⟩
        ⟨1, 1, [], []⟩ ⟨1, 1, [], []⟩) ∧
    (MosaicOut.gt_bboxes
        ⟨2, 2, translate_boxes 0 0 [⟨0, 0, 1, 1⟩] ++ translate_boxes 1 0 [] ++
          translate_boxes 0 1 [] ++ translate_boxes 1 1 [], [5]⟩ =
      translate_boxes 0 0 [⟨0, 0, 1, 1⟩] ++ translate_boxes 1 0 [] ++
        translate_boxes 0 1 [] ++ translate_boxes 1 1 []) ∧
    ((MosaicOut.gt_bboxes
        ⟨2, 2, translate_boxes 0 0 [⟨0, 0, 1, 1⟩] ++ translate_boxes 1 0 [] ++
          translate_boxes 0 1 [] ++ translate_boxes 1 1 [], [5]⟩).length =
      1 + 0 + 0 + 0) ∧
    ((MosaicOut.gt_labels
        ⟨2, 2, translate_boxes 0 0 [⟨0, 0, 1, 1⟩] ++ translate_boxes 1 0 [] ++
          translate_boxes 0 1 [] ++ translate_boxes 1 1 [], [5]⟩).length =
      1 + 0 + 0 + 0) :=
  mosaic_pipeline_spec ⟨1, 1, [⟨0, 0, 1, 1⟩], [5]⟩ ⟨1, 1, [], []⟩
    ⟨1, 1, [], []⟩ ⟨1, 1, [], []⟩ _ (by with_unfolding_all rfl)

end MVT
